import Mathlib

/-!
Verification of the spawn-record codec logic of the Cobblemon-Custom-Spawn-GUI
repository. The repository contains two GUI front ends that both implement the
same JSON codec by hand:

- the Streamlit front end in app.py, whose render functions
  (render_condition, render_weight_multiplier, render_herd_pokemon,
  render_drops, render_spawn) map a raw JSON object to widget values
  (the decode direction) and collect widget values back into a JSON object
  (the encode direction), and
- the Tkinter front end in exe.py, whose editor classes (ConditionEditor,
  WeightMultiplierEditor, HerdPokemonEditor, DropsEditor, SpawnEditor)
  split the same mapping into a widget-building step and a get_data step.

This file embeds both codecs as pure Lean functions over explicit state
types and proves or refutes the specification claims about them. Text
handling helpers used by the Python code (str.strip, str.split, join,
int(...), float(...), str(...)) are modelled explicitly below over lists of
characters so that everything computes structurally.
-/

/-! ### Python text primitives -/

/-- The whitespace characters stripped by the Python method str.strip when
called without arguments (restricted to the ASCII range, which is all that
spawn JSON files and widget text contain). -/
def isPyWS (c : Char) : Bool :=
  c = ' ' || c = '\t' || c = '\n' || c = '\r' || c = '\x0b' || c = '\x0c'

/-- Strip leading and trailing whitespace from a character list, as the
Python method str.strip does. -/
def stripChars (l : List Char) : List Char :=
  ((l.dropWhile isPyWS).reverse.dropWhile isPyWS).reverse

/-- Model of the Python expression text.strip(). -/
def pyStrip (s : String) : String :=
  ⟨stripChars s.data⟩

/-- Model of the Python expression text.split(chr(10)): split at every
newline, keeping empty pieces, so that splitting the empty string yields one
empty piece. -/
def splitNL : List Char → List (List Char)
  | [] => [[]]
  | c :: cs =>
    match splitNL cs with
    | [] => []
    | g :: gs => if c = '\n' then [] :: g :: gs else (c :: g) :: gs

/-- Model of the Python expression (chr(10)).join(pieces). -/
def intercalateNL : List (List Char) → List Char
  | [] => []
  | [l] => l
  | l :: l2 :: ls => l ++ '\n' :: intercalateNL (l2 :: ls)

/-- The newline join lifted to strings, modelling the join call used when a
list-valued condition field is loaded into a text widget. -/
def joinNL (ls : List String) : String :=
  ⟨intercalateNL (ls.map String.data)⟩

/-- The common line clean-up both front ends apply to the text of a
list-valued condition field: split into lines, strip each line, and keep the
non-blank ones. -/
def cleanLines (l : List Char) : List String :=
  ((splitNL l).map (fun cs => (⟨stripChars cs⟩ : String))).filter (fun s => s ≠ "")

/-! ### Decimal digits, Python int() and str(int) -/

/-- The ten decimal digit characters, by value. Any other index yields a
placeholder that never occurs in rendered numbers. -/
def dChar : Nat → Char
  | 0 => '0' | 1 => '1' | 2 => '2' | 3 => '3' | 4 => '4'
  | 5 => '5' | 6 => '6' | 7 => '7' | 8 => '8' | 9 => '9'
  | _ => '*'

/-- Numeric value of a decimal digit character. -/
def dVal (c : Char) : Nat :=
  c.toNat - 48

/-- Fuel-driven decimal rendering of a natural number, most significant digit
first. The fuel only needs to exceed the digit count; natReprChars supplies
n + 1 which always suffices. -/
def natReprAux : Nat → Nat → List Char
  | 0, _ => []
  | fuel + 1, n => if n < 10 then [dChar n] else natReprAux fuel (n / 10) ++ [dChar (n % 10)]

/-- Decimal digit list of a natural number. -/
def natReprChars (n : Nat) : List Char :=
  natReprAux (n + 1) n

/-- Model of the Python expression str(v) for an int value v: optional minus
sign followed by the decimal digits. -/
def intStr (v : Int) : String :=
  if v < 0 then ⟨'-' :: natReprChars (-v).toNat⟩ else ⟨natReprChars v.toNat⟩

/-- Validity of a digit run as accepted inside a Python int or float literal:
non-empty, starts and ends with a digit, and any underscore separates two
digits. -/
def validDigitsU : List Char → Bool
  | [] => false
  | [c] => c.isDigit
  | c :: d :: rest =>
    if d = '_' then c.isDigit && validDigitsU rest
    else c.isDigit && validDigitsU (d :: rest)

/-- Value of a digit list read in base 10. -/
def digitsVal (cs : List Char) : Nat :=
  cs.foldl (fun a c => 10 * a + dVal c) 0

/-- Parse an underscore-grouped digit run completely, as Python does for the
digits of an int literal. -/
def parseUDigits (cs : List Char) : Option Nat :=
  if validDigitsU cs then some (digitsVal (cs.filter (fun c => c ≠ '_'))) else none

/-- Parse an already stripped character list as the Python constructor
int(text) does: an optional sign followed by an underscore-grouped digit run. -/
def parsePyIntCore (cs : List Char) : Option Int :=
  match cs with
  | [] => none
  | c :: rest =>
    if c = '-' then (parseUDigits rest).map (fun n : Nat => -(n : Int))
    else if c = '+' then (parseUDigits rest).map (fun n : Nat => (n : Int))
    else (parseUDigits (c :: rest)).map (fun n : Nat => (n : Int))

/-- Model of the Python constructor int(text) on a string: surrounding
whitespace is ignored, then the body must be a signed decimal integer.
A failure models the ValueError branch of the callers. -/
def parsePyInt (s : String) : Option Int :=
  parsePyIntCore (stripChars s.data)

/-! ### Python float() -/

/-- Result of a successful Python float(text) call: a finite rational value,
an infinity, or a nan. The claims under verification only inspect parse
success and the fallback defaults, never float arithmetic. -/
inductive PyFloat where
  | num (q : ℚ)
  | inf (neg : Bool)
  | nan
  deriving DecidableEq

/-- Consume a leading underscore-grouped digit run, returning its value, its
digit count and the unconsumed rest. Underscores may only stand between two
digits; anything else ends the run and is left in the rest, where the
enclosing grammar then rejects it. -/
def takeUDigits (acc k : Nat) : List Char → Nat × Nat × List Char
  | [] => (acc, k, [])
  | c :: rest =>
    if c.isDigit then takeUDigits (10 * acc + dVal c) (k + 1) rest
    else if c = '_' then
      match rest with
      | c2 :: rest2 =>
        if 0 < k && c2.isDigit then takeUDigits (10 * acc + dVal c2) (k + 1) rest2
        else (acc, k, c :: c2 :: rest2)
      | [] => (acc, k, [c])
    else (acc, k, c :: rest)

/-- Parse the exponent suffix of a float literal: either nothing, or the
letter e followed by an optionally signed digit run. Input is already
lowercased. -/
def parseExpPart : List Char → Option Int
  | [] => some 0
  | c :: rest =>
    if c = 'e' then
      match rest with
      | '-' :: rest2 => (parseUDigits rest2).map (fun n : Nat => -(n : Int))
      | '+' :: rest2 => (parseUDigits rest2).map (fun n : Nat => (n : Int))
      | rest2 => (parseUDigits rest2).map (fun n : Nat => (n : Int))
    else none

/-- Parse an unsigned float body (already lowercased): digits with an
optional fraction and exponent, or a fraction-only form such as .5e3. -/
def parseUnsignedFloat (cs : List Char) : Option ℚ :=
  let (ip, ki, r1) := takeUDigits 0 0 cs
  match r1 with
  | '.' :: r2 =>
    let (fp, kf, r3) := takeUDigits 0 0 r2
    if ki = 0 && kf = 0 then none
    else (parseExpPart r3).map (fun e => ((ip : ℚ) + (fp : ℚ) / (10 : ℚ) ^ kf) * (10 : ℚ) ^ e)
  | _ =>
    if ki = 0 then none
    else (parseExpPart r1).map (fun e => (ip : ℚ) * (10 : ℚ) ^ e)

/-- Model of the Python constructor float(text): surrounding whitespace is
ignored, an optional sign is followed either by an infinity or nan keyword
(case-insensitive) or by a decimal body with optional fraction and exponent.
A failure models the ValueError branch of the callers. Exotic non-ASCII
digit forms accepted by CPython are outside the modelled input space. -/
def parsePyFloat (s : String) : Option PyFloat :=
  match stripChars s.data with
  | [] => none
  | c :: rest =>
    let (neg, body) :=
      if c = '-' then (true, rest)
      else if c = '+' then (false, rest)
      else (false, c :: rest)
    let lower := body.map Char.toLower
    if lower = "inf".data || lower = "infinity".data then some (.inf neg)
    else if lower = "nan".data then some .nan
    else (parseUnsignedFloat lower).map (fun q => .num (if neg then -q else q))

/-- Truthiness of a comparison percentage > 0 in Python, for a parsed float. -/
def pyFloatPos : PyFloat → Bool
  | .num q => 0 < q
  | .inf neg => !neg
  | .nan => false

/-! ### Vocabulary constants (identical in app.py and exe.py) -/

/-- TIME_RANGES from app.py and exe.py. Index 0 is the explicit unset value. -/
def TIME_RANGES : List String :=
  ["", "any", "day", "night", "morning", "noon", "afternoon",
   "evening", "midnight", "predawn", "dawn", "dusk", "twilight"]

/-- MOON_PHASES from app.py and exe.py. Index 0 is the explicit unset value. -/
def MOON_PHASES : List String :=
  ["", "full", "new", "crescent", "gibbous", "quarter", "waxing", "waning"]

/-! ### Condition field enumerations (CONDITION_*_FIELDS in both files) -/

/-- The five boolean condition fields (CONDITION_BOOL_FIELDS). -/
inductive BoolField where
  | canSeeSky | isRaining | isThundering | isSlimeChunk | fluidIsSource
  deriving DecidableEq

/-- The sixteen integer condition fields (CONDITION_INT_FIELDS). -/
inductive IntField where
  | minSkyLight | maxSkyLight | minLight | maxLight
  | minY | maxY | minX | maxX | minZ | maxZ
  | minLureLevel | maxLureLevel
  | minHeight | maxHeight | minDepth | maxDepth
  deriving DecidableEq

/-- The six list-valued condition fields (CONDITION_LIST_FIELDS). -/
inductive ListField where
  | biomes | structures | neededNearbyBlocks | neededBaseBlocks
  | dimensions | markers
  deriving DecidableEq

/-- The four free-string condition fields (CONDITION_STRING_FIELDS). -/
inductive StrField where
  | bait | rodType | rod | fluid
  deriving DecidableEq

/-- Listing of every boolean condition field. -/
def BoolField.all : List BoolField :=
  [.canSeeSky, .isRaining, .isThundering, .isSlimeChunk, .fluidIsSource]

/-- Listing of every integer condition field. -/
def IntField.all : List IntField :=
  [.minSkyLight, .maxSkyLight, .minLight, .maxLight,
   .minY, .maxY, .minX, .maxX, .minZ, .maxZ,
   .minLureLevel, .maxLureLevel,
   .minHeight, .maxHeight, .minDepth, .maxDepth]

/-- Listing of every list-valued condition field. -/
def ListField.all : List ListField :=
  [.biomes, .structures, .neededNearbyBlocks, .neededBaseBlocks,
   .dimensions, .markers]

/-- Listing of every free-string condition field. -/
def StrField.all : List StrField :=
  [.bait, .rodType, .rod, .fluid]

/-! ### Raw JSON shapes -/

/-- A JSON scalar as it may appear for the moonPhase key: either a string or
an integer, since source files sometimes store the phase numerically. -/
inductive PyVal where
  | str (s : String)
  | intv (n : Int)
  deriving DecidableEq

/-- Model of the Python expression str(v) on such a scalar. -/
def pyStr : PyVal → String
  | .str s => s
  | .intv n => intStr n

/-- A raw condition object as read from or written to a spawn JSON file,
restricted to the keys both codecs know about; an absent key is none. Decode
of arbitrary external JSON ignores unknown keys, so this typed shape covers
every valid input the codecs distinguish. -/
structure RawCondition where
  timeRange : Option String
  moonPhase : Option PyVal
  bools : BoolField → Option Bool
  ints : IntField → Option Int
  lists : ListField → Option (List String)
  strs : StrField → Option String

/-- The empty raw condition object. -/
def emptyRawCond : RawCondition :=
  { timeRange := none, moonPhase := none,
    bools := fun _ => none, ints := fun _ => none,
    lists := fun _ => none, strs := fun _ => none }

/-- Python dict truthiness of an encoded condition object: true when any key
is present. -/
def rawCondNonempty (c : RawCondition) : Bool :=
  c.timeRange.isSome || c.moonPhase.isSome
    || BoolField.all.any (fun f => (c.bools f).isSome)
    || IntField.all.any (fun f => (c.ints f).isSome)
    || ListField.all.any (fun f => (c.lists f).isSome)
    || StrField.all.any (fun f => (c.strs f).isSome)

/-! ### Tkinter condition editor state (exe.py ConditionEditor) -/

/-- Widget state of a ConditionEditor in exe.py: the two combobox string
variables, the checkbox booleans, for every integer field the entry text
together with the had-explicit-value flag recorded at build time, the raw
text of each list text widget, and the entry text of each free-string field. -/
structure ExeCondState where
  time : String
  moon : String
  bools : BoolField → Bool
  ints : IntField → String × Bool
  lists : ListField → String
  strs : StrField → String

/-- Widget initialization of an integer field in ConditionEditor._build:
current value rendered with str if present (flag true), empty text otherwise
(flag false). -/
def exeDecInt : Option Int → String × Bool
  | some v => (intStr v, true)
  | none => ("", false)

/-- Result collection of an integer field in ConditionEditor.get_data: strip
the entry text, skip when blank, parse with int, skip on ValueError, and emit
only when the source had an explicit value or the parsed value is non-zero. -/
def exeEncInt : String × Bool → Option Int
  | (txt, had) =>
    if pyStrip txt = "" then none
    else
      match parsePyInt txt with
      | some v => if had ∨ v ≠ 0 then some v else none
      | none => none

/-- Result collection of a list field in ConditionEditor.get_data: the text
widget content (the widget itself appends a trailing newline, removed by the
initial strip), split into lines, each stripped, blanks dropped, emitted only
when non-empty. -/
def exeEncList (t : String) : Option (List String) :=
  let entries := cleanLines (stripChars t.data)
  if entries.isEmpty then none else some entries

/-- Widget initialization in ConditionEditor._build: combobox variables from
the raw values (moonPhase coerced through str, values not in the vocabulary
kept as they are), checkbox values defaulting to false, integer entries via
exeDecInt, list texts joined with newlines, string entries defaulting to
empty. -/
def exeDecodeCond (r : RawCondition) : ExeCondState :=
  { time := r.timeRange.getD ""
    moon := (r.moonPhase.map pyStr).getD ""
    bools := fun f => (r.bools f).getD false
    ints := fun f => exeDecInt (r.ints f)
    lists := fun f => joinNL ((r.lists f).getD [])
    strs := fun f => (r.strs f).getD "" }

/-- Result collection in ConditionEditor.get_data: each category is emitted
only when populated, integer fields according to exeEncInt, string fields
stripped first. -/
def exeEncodeCond (w : ExeCondState) : RawCondition :=
  { timeRange := if w.time = "" then none else some w.time
    moonPhase := if w.moon = "" then none else some (.str w.moon)
    bools := fun f => if w.bools f then some true else none
    ints := fun f => exeEncInt (w.ints f)
    lists := fun f => exeEncList (w.lists f)
    strs := fun f => if pyStrip (w.strs f) = "" then none else some (pyStrip (w.strs f)) }

/-! ### Streamlit condition editor state (app.py render_condition) -/

/-- Widget state of render_condition in app.py: the two selectbox values, the
checkbox booleans, for every integer field the number-input value together
with the had-explicit-value information taken from the raw object, the text
area content of each list field, and the text input of each string field. -/
structure AppCondState where
  time : String
  moon : String
  bools : BoolField → Bool
  ints : IntField → Int × Bool
  lists : ListField → String
  strs : StrField → String

/-- Selectbox initialization in render_condition: the current value when it
is in the vocabulary, otherwise the entry at index 0, which is the empty
string in both vocabularies. -/
def appDecChoice (vocab : List String) (cur : String) : String :=
  if cur ∈ vocab then cur else ""

/-- Widget initialization in render_condition (the decode direction of the
fused render pass): selectboxes via appDecChoice after coercing moonPhase
through str, checkboxes defaulting to false, number inputs defaulting to 0
with the had-explicit-value flag from the raw object, text areas joined with
newlines, text inputs defaulting to empty. -/
def appDecodeCond (r : RawCondition) : AppCondState :=
  { time := appDecChoice TIME_RANGES (r.timeRange.getD "")
    moon := appDecChoice MOON_PHASES ((r.moonPhase.map pyStr).getD "")
    bools := fun f => (r.bools f).getD false
    ints := fun f => match r.ints f with
      | some v => (v, true)
      | none => (0, false)
    lists := fun f => joinNL ((r.lists f).getD [])
    strs := fun f => (r.strs f).getD "" }

/-- Result collection side of render_condition: values are emitted only when
truthy, an integer field when the source had an explicit value or the edited
value is non-zero, list fields after line clean-up, string fields without
stripping. -/
def appEncodeCond (w : AppCondState) : RawCondition :=
  { timeRange := if w.time = "" then none else some w.time
    moonPhase := if w.moon = "" then none else some (.str w.moon)
    bools := fun f => if w.bools f then some true else none
    ints := fun f => if (w.ints f).2 ∨ (w.ints f).1 ≠ 0 then some (w.ints f).1 else none
    lists := fun f =>
      let entries := cleanLines (w.lists f).data
      if entries.isEmpty then none else some entries
    strs := fun f => if w.strs f = "" then none else some (w.strs f) }

/-! ### Raw sub-record shapes -/

/-- A raw weight multiplier object. Decode reads both keys with defaults, so
either may be absent in external input; both encoders always emit both. -/
structure RawWM where
  multiplier : Option PyFloat
  condition : Option RawCondition

/-- Python dict truthiness of a raw weight multiplier object. -/
def wmTruthy (w : RawWM) : Bool :=
  w.multiplier.isSome || w.condition.isSome

/-- A raw herd member object as produced by the encoders. -/
structure RawHerd where
  pokemon : String
  levelRange : String
  weight : PyFloat
  isLeader : Bool
  maxTimes : Option Int
  levelRangeOffset : Option String

/-- A raw drop entry object as produced by the encoders. -/
structure RawDropEntry where
  item : String
  quantityRange : Option String
  percentage : Option PyFloat
  deriving DecidableEq

/-- A raw drops object as produced by the encoders: the amount and the entry
list are always present, the entry list possibly empty. -/
structure RawDrops where
  amount : Int
  entries : List RawDropEntry
  deriving DecidableEq

/-- A raw spawn entry object as produced by the encoders of either front end.
Optional members model key presence; the legacy singular weightMultiplier key
is part of the shape precisely so that its absence from every encoded record
is expressible. -/
structure RawSpawn where
  id : String
  typ : String
  pokemon : Option String
  presets : Option (List String)
  pos : String
  bucket : String
  level : Option String
  levelRange : Option String
  weight : PyFloat
  maxHerdSize : Option Int
  minDistanceBetweenSpawns : Option PyFloat
  herdablePokemon : Option (List RawHerd)
  weightMultiplier : Option RawWM
  weightMultipliers : Option (List RawWM)
  condition : Option RawCondition
  anticondition : Option RawCondition
  drops : Option RawDrops

/-- The weight-multiplier legacy normalization performed identically at
app.py lines 382 to 387 and exe.py lines 616 to 619: read the singular key
(default none) and the plural key (default empty list); when the singular
value is truthy and the plural list is empty, use the singular value as a
one-element list. -/
def normalizeWms (single : Option RawWM) (plural : Option (List RawWM)) : List RawWM :=
  let wms := plural.getD []
  match single with
  | some s => if wmTruthy s && wms.isEmpty then [s] else wms
  | none => wms

/-! ### Tkinter editor states and get_data (exe.py) -/

/-- Widget state of a WeightMultiplierEditor: the multiplier entry text and
the embedded condition editor state. -/
structure ExeWMState where
  multText : String
  cond : ExeCondState

/-- WeightMultiplierEditor.get_data: parse the multiplier text with float,
falling back to 1.0 on ValueError, and always emit both keys, the condition
key even when the collected condition object is empty. -/
def exeWMGetData (w : ExeWMState) : RawWM :=
  { multiplier := some ((parsePyFloat w.multText).getD (.num 1))
    condition := some (exeEncodeCond w.cond) }

/-- Widget state of a HerdPokemonEditor. -/
structure ExeHerdState where
  pokemon : String
  levelRange : String
  weightText : String
  isLeader : Bool
  maxTimesText : String
  offsetText : String

/-- HerdPokemonEditor.get_data: weight falls back to 1.0 on ValueError,
maxTimes is emitted only when it parses to a positive value, the offset only
when non-blank after stripping. -/
def exeHerdGetData (s : ExeHerdState) : RawHerd :=
  { pokemon := s.pokemon
    levelRange := s.levelRange
    weight := (parsePyFloat s.weightText).getD (.num 1)
    isLeader := s.isLeader
    maxTimes := match parsePyInt s.maxTimesText with
      | some mt => if 0 < mt then some mt else none
      | none => none
    levelRangeOffset := if pyStrip s.offsetText = "" then none else some (pyStrip s.offsetText) }

/-- Widget state of one drop entry row in a DropsEditor. -/
structure ExeDropEntryState where
  item : String
  qr : String
  pctText : String

/-- The per-entry step of DropsEditor.get_data: an entry whose item strips to
blank is skipped entirely; otherwise quantityRange is emitted when non-blank
and percentage when it parses to a positive value. -/
def exeEncodeDropEntry (wd : ExeDropEntryState) : Option RawDropEntry :=
  if pyStrip wd.item = "" then none
  else some
    { item := pyStrip wd.item
      quantityRange := if pyStrip wd.qr = "" then none else some (pyStrip wd.qr)
      percentage := match parsePyFloat wd.pctText with
        | some p => if pyFloatPos p then some p else none
        | none => none }

/-- Widget state of a DropsEditor: the enable checkbox, the amount entry text
and the entry rows. -/
structure ExeDropsState where
  enabled : Bool
  amountText : String
  entries : List ExeDropEntryState

/-- DropsEditor.get_data: none when disabled, otherwise the amount (falling
back to 1 on ValueError) and the collected entries. -/
def exeDropsGetData (d : ExeDropsState) : Option RawDrops :=
  if d.enabled then
    some { amount := (parsePyInt d.amountText).getD 1
           entries := d.entries.filterMap exeEncodeDropEntry }
  else none

/-- Widget state of a SpawnEditor in exe.py. The level entry is shared
between the level and levelRange keys; the herd entries keep their state even
while the type is non-herd, exactly as the hidden Tkinter frames do. -/
structure ExeSpawnState where
  id : String
  typ : String
  pokemon : String
  presets : List String
  pos : String
  bucket : String
  level : String
  weightText : String
  herdSizeText : String
  herdDistText : String
  herdMembers : List ExeHerdState
  wms : List ExeWMState
  cond : ExeCondState
  anti : ExeCondState
  drops : ExeDropsState

/-- SpawnEditor.get_data: the variant fields follow the current type value
(herd records carry no pokemon or level key, non-herd records carry none of
the herd keys), presets and weightMultipliers are omitted when empty, weight
falls back to 1.0 and the herd numerics to their defaults on ValueError, and
condition and anticondition are omitted when the collected object is empty. -/
def exeSpawnGetData (s : ExeSpawnState) : RawSpawn :=
  let isHerd := s.typ = "pokemon-herd"
  let cond := exeEncodeCond s.cond
  let anti := exeEncodeCond s.anti
  { id := s.id
    typ := s.typ
    pokemon := if isHerd then none else some s.pokemon
    presets := if s.presets.isEmpty then none else some s.presets
    pos := s.pos
    bucket := s.bucket
    level := if isHerd then none else some s.level
    levelRange := if isHerd then some s.level else none
    weight := (parsePyFloat s.weightText).getD (.num 1)
    maxHerdSize := if isHerd then some ((parsePyInt s.herdSizeText).getD 5) else none
    minDistanceBetweenSpawns :=
      if isHerd then some ((parsePyFloat s.herdDistText).getD (.num (3 / 2))) else none
    herdablePokemon := if isHerd then some (s.herdMembers.map exeHerdGetData) else none
    weightMultiplier := none
    weightMultipliers :=
      if (s.wms.map exeWMGetData).isEmpty then none else some (s.wms.map exeWMGetData)
    condition := if rawCondNonempty cond then some cond else none
    anticondition := if rawCondNonempty anti then some anti else none
    drops := exeDropsGetData s.drops }

/-! ### Streamlit editor states and render results (app.py) -/

/-- Widget state of one weight multiplier block in render_spawn: the number
input value and the embedded condition state. -/
structure AppWMState where
  mult : PyFloat
  cond : AppCondState

/-- render_weight_multiplier: both keys are always emitted, the condition key
even when the collected condition object is empty. -/
def appRenderWM (w : AppWMState) : RawWM :=
  { multiplier := some w.mult
    condition := some (appEncodeCond w.cond) }

/-- Widget state of one herd member block in render_spawn. -/
structure AppHerdState where
  pokemon : String
  levelRange : String
  weight : PyFloat
  isLeader : Bool
  maxTimes : Int
  offset : String

/-- render_herd_pokemon: pokemon, levelRange, weight and isLeader are always
emitted, maxTimes only when positive, the offset only when non-empty. -/
def appRenderHerd (s : AppHerdState) : RawHerd :=
  { pokemon := s.pokemon
    levelRange := s.levelRange
    weight := s.weight
    isLeader := s.isLeader
    maxTimes := if 0 < s.maxTimes then some s.maxTimes else none
    levelRangeOffset := if s.offset = "" then none else some s.offset }

/-- Widget state of one drop entry row in render_drops. -/
structure AppDropEntryState where
  item : String
  qr : String
  pct : PyFloat

/-- The per-entry step of render_drops: an entry with an empty item text is
skipped entirely; otherwise quantityRange is emitted when non-empty and
percentage when positive. -/
def appEncodeDropEntry (wd : AppDropEntryState) : Option RawDropEntry :=
  if wd.item = "" then none
  else some
    { item := wd.item
      quantityRange := if wd.qr = "" then none else some wd.qr
      percentage := if pyFloatPos wd.pct then some wd.pct else none }

/-- Widget state of the drops block in render_drops. -/
structure AppDropsState where
  enabled : Bool
  amount : Int
  entries : List AppDropEntryState

/-- render_drops: none when the enable checkbox is off, otherwise the amount
number input value and the collected entries. -/
def appRenderDrops (d : AppDropsState) : Option RawDrops :=
  if d.enabled then
    some { amount := d.amount
           entries := d.entries.filterMap appEncodeDropEntry }
  else none

/-- Widget state of one spawn block in render_spawn. -/
structure AppSpawnState where
  id : String
  typ : String
  pokemon : String
  presets : List String
  pos : String
  bucket : String
  level : String
  weight : PyFloat
  maxHerdSize : Int
  minDist : PyFloat
  herdMembers : List AppHerdState
  wms : List AppWMState
  cond : AppCondState
  anti : AppCondState
  drops : AppDropsState

/-- render_spawn result collection: the variant fields follow the selected
type, weightMultipliers is emitted only when the collected list is non-empty,
and the final clean-up pops condition, anticondition and presets when they
collect to empty values. -/
def appRenderSpawn (s : AppSpawnState) : RawSpawn :=
  let isHerd := s.typ = "pokemon-herd"
  let cond := appEncodeCond s.cond
  let anti := appEncodeCond s.anti
  { id := s.id
    typ := s.typ
    pokemon := if isHerd then none else some s.pokemon
    presets := if s.presets.isEmpty then none else some s.presets
    pos := s.pos
    bucket := s.bucket
    level := if isHerd then none else some s.level
    levelRange := if isHerd then some s.level else none
    weight := s.weight
    maxHerdSize := if isHerd then some s.maxHerdSize else none
    minDistanceBetweenSpawns := if isHerd then some s.minDist else none
    herdablePokemon := if isHerd then some (s.herdMembers.map appRenderHerd) else none
    weightMultiplier := none
    weightMultipliers :=
      if (s.wms.map appRenderWM).isEmpty then none else some (s.wms.map appRenderWM)
    condition := if rawCondNonempty cond then some cond else none
    anticondition := if rawCondNonempty anti then some anti else none
    drops := appRenderDrops s.drops }

/-! ### Module import model (exe.py line 16) -/

/-- The names bound at the top level of the module get_default_pokemons.py:
its imports, constants and function definitions. No name set_blank is bound
anywhere in the module. -/
def getDefaultPokemonsNames : List String :=
  ["io", "json", "os", "re", "sys", "tarfile", "rmtree", "requests",
   "BASE_URL", "PROJECT_ID", "SPAWN_FOLDER", "SPECIES_FOLDER", "REF",
   "OUTPUT_DIR", "BLANK_SPAWN",
   "download_spawn_pool", "fetch_all_species", "create_blank_spawns",
   "get_default", "reset"]

/-- The names exe.py line 16 requests from get_default_pokemons. -/
def exeFromImportNames : List String :=
  ["reset", "set_blank"]

/-- A Python from-import raises ImportError exactly when some requested name
is not bound in the module. -/
def fromImportFails (module names : List String) : Bool :=
  names.any (fun n => !(module.contains n))

/-! ### Round-trip lemmas for the condition codecs -/

/-- A list entry in a raw condition that survives the text-widget round trip
unchanged: non-blank, free of surrounding whitespace, and single-line. -/
def entryNormalized (e : String) : Prop :=
  e ≠ "" ∧ pyStrip e = e ∧ '\n' ∉ e.data

instance (e : String) : Decidable (entryNormalized e) := by
  unfold entryNormalized
  infer_instance

/-! ### Blank states, edit operations and concrete inputs -/

/-- A Tkinter condition editor whose fields all hold their zero, false or
empty values: no choice made, no checkbox ticked, every integer entry blank
or zero without a source flag, every text empty. -/
def ExeCondState.blank (w : ExeCondState) : Prop :=
  w.time = "" ∧ w.moon = "" ∧
  (∀ f ∈ BoolField.all, w.bools f = false) ∧
  (∀ f ∈ IntField.all, (w.ints f).2 = false ∧ ((w.ints f).1 = "" ∨ (w.ints f).1 = "0")) ∧
  (∀ f ∈ ListField.all, w.lists f = "") ∧
  (∀ f ∈ StrField.all, w.strs f = "")

instance (w : ExeCondState) : Decidable w.blank := by
  unfold ExeCondState.blank
  infer_instance

/-- A Streamlit condition block whose fields all hold their zero, false or
empty values. -/
def AppCondState.blank (w : AppCondState) : Prop :=
  w.time = "" ∧ w.moon = "" ∧
  (∀ f ∈ BoolField.all, w.bools f = false) ∧
  (∀ f ∈ IntField.all, w.ints f = (0, false)) ∧
  (∀ f ∈ ListField.all, w.lists f = "") ∧
  (∀ f ∈ StrField.all, w.strs f = "")

instance (w : AppCondState) : Decidable w.blank := by
  unfold AppCondState.blank
  infer_instance

/-- A user edit of one integer entry of a Tkinter condition editor: the entry
text changes, the had-explicit-value flag recorded at build time does not. -/
def ExeCondState.setIntText (w : ExeCondState) (f : IntField) (t : String) : ExeCondState :=
  { w with ints := fun g => if g = f then (t, (w.ints g).2) else w.ints g }

/-- A user edit of one integer number input of a Streamlit condition block:
the value changes, the source-presence information does not. -/
def AppCondState.setIntVal (w : AppCondState) (f : IntField) (v : Int) : AppCondState :=
  { w with ints := fun g => if g = f then (v, (w.ints g).2) else w.ints g }

/-- The all-empty Tkinter condition editor state. -/
def blankExeCond : ExeCondState :=
  { time := "", moon := "", bools := fun _ => false, ints := fun _ => ("", false),
    lists := fun _ => "", strs := fun _ => "" }

/-- The all-empty Streamlit condition block state. -/
def blankAppCond : AppCondState :=
  { time := "", moon := "", bools := fun _ => false, ints := fun _ => (0, false),
    lists := fun _ => "", strs := fun _ => "" }

/-- A disabled Tkinter drops editor. -/
def sampleExeDrops : ExeDropsState :=
  { enabled := false, amountText := "1", entries := [] }

/-- A disabled Streamlit drops block. -/
def sampleAppDrops : AppDropsState :=
  { enabled := false, amount := 1, entries := [] }

/-- A concrete Tkinter spawn editor state with empty condition editors. -/
def sampleExeSpawn : ExeSpawnState :=
  { id := "pidgey-1", typ := "pokemon", pokemon := "pidgey", presets := ["natural"],
    pos := "grounded", bucket := "common", level := "1-10", weightText := "1.0",
    herdSizeText := "5", herdDistText := "1.5", herdMembers := [], wms := [],
    cond := blankExeCond, anti := blankExeCond, drops := sampleExeDrops }

/-- A concrete Streamlit spawn block state with empty condition blocks. -/
def sampleAppSpawn : AppSpawnState :=
  { id := "pidgey-1", typ := "pokemon", pokemon := "pidgey", presets := ["natural"],
    pos := "grounded", bucket := "common", level := "1-10", weight := .num 1,
    maxHerdSize := 5, minDist := .num (3 / 2), herdMembers := [], wms := [],
    cond := blankAppCond, anti := blankAppCond, drops := sampleAppDrops }

/-- A raw weight multiplier that is an empty JSON object: both known keys
absent. Python dict truthiness of this value is false. -/
def rawWMEmpty : RawWM :=
  { multiplier := none, condition := none }

/-- A raw weight multiplier with a populated multiplier key. -/
def sampleRawWM : RawWM :=
  { multiplier := some (.num 2), condition := none }

/-- A raw condition whose biomes list contains a blank entry: a valid JSON
condition object on which the text-widget round trip is lossy. -/
def rawC1 : RawCondition :=
  { emptyRawCond with lists := fun f => if f = ListField.biomes then some ["a", ""] else none }

/-- A raw condition with normalized list entries, a trimmed string field, an
explicit integer zero, a numeric moon phase and a vocabulary time range. -/
def rawC1Good : RawCondition :=
  { timeRange := some "day"
    moonPhase := some (.intv 3)
    bools := fun f => if f = BoolField.isRaining then some true else none
    ints := fun f => if f = IntField.minY then some (-3) else none
    lists := fun f => if f = ListField.biomes then some ["plains", "forest"] else none
    strs := fun f => if f = StrField.bait then some "worm" else none }

/-- A raw condition whose minY key holds an explicit zero. -/
def rawC6 : RawCondition :=
  { emptyRawCond with ints := fun f => if f = IntField.minY then some 0 else none }

/-- A raw condition whose moonPhase is a string outside the vocabulary. -/
def rawC9 : RawCondition :=
  { emptyRawCond with moonPhase := some (.str "blood") }

/-- A raw condition with a numeric moonPhase and an out-of-vocabulary
timeRange. -/
def rawC9Num : RawCondition :=
  { emptyRawCond with moonPhase := some (.intv 3), timeRange := some "sometimes" }

/-- A Tkinter spawn editor state whose weight text does not parse. -/
def badExeSpawn : ExeSpawnState :=
  { sampleExeSpawn with weightText := "abc" }

/-- A Tkinter weight multiplier editor whose multiplier text does not parse. -/
def badExeWM : ExeWMState :=
  { multText := "oops", cond := blankExeCond }

/-- An enabled Tkinter drops editor whose amount text does not parse. -/
def badExeDrops : ExeDropsState :=
  { enabled := true, amountText := "many", entries := [] }

/-- An enabled Tkinter drops editor holding one entry with an empty item and
a set percentage, and one entry with an item. -/
def dC10 : ExeDropsState :=
  { enabled := true, amountText := "1",
    entries := [{ item := "", qr := "", pctText := "5.0" },
                { item := "stone", qr := "", pctText := "" }] }

/-- The drops object DropsEditor.get_data collects from dC10. -/
def rC10 : RawDrops :=
  { amount := 1, entries := [{ item := "stone", quantityRange := none, percentage := none }] }

/-- An enabled Streamlit drops block holding one entry with an empty item and
a positive percentage, and one entry with an item. -/
def aC10 : AppDropsState :=
  { enabled := true, amount := 2,
    entries := [{ item := "", qr := "x", pct := .num 1 },
                { item := "dirt", qr := "", pct := .num 0 }] }

/-- The drops object render_drops collects from aC10. -/
def raC10 : RawDrops :=
  { amount := 2, entries := [{ item := "dirt", quantityRange := none, percentage := none }] }

theorem memAllBoolField (f : BoolField) : f ∈ BoolField.all := by
  cases f <;> simp [BoolField.all]

theorem memAllIntField (f : IntField) : f ∈ IntField.all := by
  cases f <;> simp [IntField.all]

theorem memAllListField (f : ListField) : f ∈ ListField.all := by
  cases f <;> simp [ListField.all]

theorem memAllStrField (f : StrField) : f ∈ StrField.all := by
  cases f <;> simp [StrField.all]

/-! ### Lemmas about stripping -/

theorem string_mk_eq_empty_iff (l : List Char) : (⟨l⟩ : String) = "" ↔ l = [] := by
  constructor
  · intro h
    have h2 := congrArg String.data h
    simpa using h2
  · intro h
    rw [h]

theorem dropWhile_eq_self_of_head (l : List Char)
    (h : ∀ c, l.head? = some c → isPyWS c = false) :
    l.dropWhile isPyWS = l := by
  cases l with
  | nil => rfl
  | cons a t =>
    rw [List.dropWhile_cons, h a rfl]
    simp

theorem stripChars_eq_self (l : List Char)
    (hh : ∀ c, l.head? = some c → isPyWS c = false)
    (hl : ∀ c, l.getLast? = some c → isPyWS c = false) :
    stripChars l = l := by
  unfold stripChars
  rw [dropWhile_eq_self_of_head l hh]
  rw [dropWhile_eq_self_of_head l.reverse (by
    intro c hc
    exact hl c (by rwa [List.head?_reverse] at hc))]
  exact List.reverse_reverse l

theorem stripChars_eq_self_of_all (l : List Char)
    (h : ∀ c ∈ l, isPyWS c = false) :
    stripChars l = l := by
  refine stripChars_eq_self l (fun c hc => h c (List.mem_of_mem_head? hc)) (fun c hc => ?_)
  have hm : c ∈ l.reverse := List.mem_of_mem_head? (by rwa [List.head?_reverse])
  exact h c (List.mem_reverse.mp hm)

theorem ends_not_ws_of_stripChars_eq (l : List Char) (h : stripChars l = l) :
    (∀ c, l.head? = some c → isPyWS c = false) ∧
    (∀ c, l.getLast? = some c → isPyWS c = false) := by
  have hlen : (stripChars l).length = l.length := by rw [h]
  have hstep : ∀ m : List Char, (stripChars m).length ≤ (m.dropWhile isPyWS).length := by
    intro m
    unfold stripChars
    calc ((m.dropWhile isPyWS).reverse.dropWhile isPyWS).reverse.length
        = ((m.dropWhile isPyWS).reverse.dropWhile isPyWS).length := List.length_reverse ..
      _ ≤ (m.dropWhile isPyWS).reverse.length := (List.dropWhile_suffix _).sublist.length_le
      _ = (m.dropWhile isPyWS).length := List.length_reverse ..
  have hhead : ∀ c, l.head? = some c → isPyWS c = false := by
    intro c hc
    by_contra hws
    have hws2 : isPyWS c = true := by
      cases hb : isPyWS c
      · exact absurd hb hws
      · rfl
    obtain ⟨a, t, rfl⟩ := List.exists_cons_of_ne_nil (l := l) (by
      intro hnil
      rw [hnil] at hc
      exact Option.noConfusion hc)
    have ha : a = c := by
      simpa using hc
    subst ha
    have hdrop : (a :: t).dropWhile isPyWS = t.dropWhile isPyWS := by
      rw [List.dropWhile_cons, hws2]
      simp
    have h1 := hstep (a :: t)
    rw [hdrop] at h1
    have h2 : (t.dropWhile isPyWS).length ≤ t.length :=
      (List.dropWhile_suffix _).sublist.length_le
    rw [hlen] at h1
    simp only [List.length_cons] at h1
    omega
  refine ⟨hhead, ?_⟩
  intro c hc
  by_contra hws
  have hws2 : isPyWS c = true := by
    cases hb : isPyWS c
    · exact absurd hb hws
    · rfl
  have hd1 : l.dropWhile isPyWS = l := dropWhile_eq_self_of_head l hhead
  have h3 : (l.reverse.dropWhile isPyWS).reverse = l := by
    have := h
    unfold stripChars at this
    rwa [hd1] at this
  have hrev : l.reverse.head? = some c := by
    rw [List.head?_reverse]
    exact hc
  obtain ⟨a, t, hat⟩ := List.exists_cons_of_ne_nil (l := l.reverse) (by
    intro hnil
    rw [hnil] at hrev
    exact Option.noConfusion hrev)
  have ha : a = c := by
    rw [hat] at hrev
    simpa using hrev
  subst ha
  have hdrop : l.reverse.dropWhile isPyWS = t.dropWhile isPyWS := by
    rw [hat, List.dropWhile_cons, hws2]
    simp
  have hlen2 : l.reverse.length = t.length + 1 := by
    rw [hat]
    simp
  have h4 := congrArg List.length h3
  rw [hdrop] at h4
  have h5 : (t.dropWhile isPyWS).length ≤ t.length :=
    (List.dropWhile_suffix _).sublist.length_le
  simp only [List.length_reverse] at h4 hlen2
  omega

/-! ### Lemmas about splitting and joining -/

theorem splitNL_ne_nil (cs : List Char) : splitNL cs ≠ [] := by
  induction cs with
  | nil => simp [splitNL]
  | cons c t ih =>
    obtain ⟨g, gs, hg⟩ := List.exists_cons_of_ne_nil ih
    simp only [splitNL, hg]
    split <;> simp

theorem splitNL_no_nl (cs : List Char) (h : '\n' ∉ cs) : splitNL cs = [cs] := by
  induction cs with
  | nil => rfl
  | cons c t ih =>
    have hc : c ≠ '\n' := fun hcc => h (hcc ▸ List.mem_cons_self c t)
    have ht : '\n' ∉ t := fun htt => h (List.mem_cons_of_mem c htt)
    simp only [splitNL, ih ht]
    rw [if_neg hc]

theorem splitNL_append (cs rest : List Char) (h : '\n' ∉ cs) :
    splitNL (cs ++ '\n' :: rest) = cs :: splitNL rest := by
  induction cs with
  | nil =>
    obtain ⟨g, gs, hg⟩ := List.exists_cons_of_ne_nil (splitNL_ne_nil rest)
    simp only [List.nil_append, splitNL, hg]
    simp
  | cons c t ih =>
    have hc : c ≠ '\n' := fun hcc => h (hcc ▸ List.mem_cons_self c t)
    have ht : '\n' ∉ t := fun htt => h (List.mem_cons_of_mem c htt)
    simp only [List.cons_append, splitNL, List.append_eq]
    rw [ih ht]
    simp [hc]

theorem splitNL_intercalateNL (xss : List (List Char)) (hne : xss ≠ [])
    (h : ∀ l ∈ xss, '\n' ∉ l) :
    splitNL (intercalateNL xss) = xss := by
  induction xss with
  | nil => exact absurd rfl hne
  | cons x rest ih =>
    cases rest with
    | nil =>
      simp only [intercalateNL]
      exact splitNL_no_nl x (h x (List.mem_cons_self ..))
    | cons y rest2 =>
      simp only [intercalateNL]
      rw [splitNL_append x _ (h x (List.mem_cons_self ..))]
      rw [ih (by simp) (fun l hl => h l (List.mem_cons_of_mem x hl))]

theorem intercalateNL_ne_nil (xss : List (List Char)) (hne : xss ≠ [])
    (h : ∀ l ∈ xss, l ≠ []) :
    intercalateNL xss ≠ [] := by
  cases xss with
  | nil => exact absurd rfl hne
  | cons x rest =>
    cases rest with
    | nil => exact h x (List.mem_cons_self ..)
    | cons y rest2 =>
      simp only [intercalateNL]
      intro hemp
      have hx : x = [] := by
        cases hap : x with
        | nil => rfl
        | cons a t => rw [hap] at hemp; exact List.noConfusion hemp
      exact h x (List.mem_cons_self ..) hx

theorem head?_intercalateNL (x : List Char) (xss : List (List Char)) (hx : x ≠ []) :
    (intercalateNL (x :: xss)).head? = x.head? := by
  cases xss with
  | nil => rfl
  | cons y rest =>
    simp only [intercalateNL]
    obtain ⟨a, t, rfl⟩ := List.exists_cons_of_ne_nil hx
    rfl

theorem getLast?_intercalateNL (xss : List (List Char)) (hne : xss ≠ [])
    (h : ∀ l ∈ xss, l ≠ []) :
    ∃ l ∈ xss, (intercalateNL xss).getLast? = l.getLast? := by
  induction xss with
  | nil => exact absurd rfl hne
  | cons x rest ih =>
    cases rest with
    | nil => exact ⟨x, List.mem_cons_self .., rfl⟩
    | cons y rest2 =>
      obtain ⟨l, hl, hlast⟩ := ih (by simp) (fun m hm => h m (List.mem_cons_of_mem x hm))
      refine ⟨l, List.mem_cons_of_mem x hl, ?_⟩
      have hstep : intercalateNL (x :: y :: rest2) = x ++ '\n' :: intercalateNL (y :: rest2) := rfl
      rw [hstep, List.getLast?_append]
      have htail : intercalateNL (y :: rest2) ≠ [] :=
        intercalateNL_ne_nil _ (by simp) (fun m hm => h m (List.mem_cons_of_mem x hm))
      have hsome : ((intercalateNL (y :: rest2)).getLast?).isSome = true := by
        cases hcase : (intercalateNL (y :: rest2)).getLast? with
        | none => exact absurd (List.getLast?_eq_none_iff.mp hcase) htail
        | some b => rfl
      obtain ⟨a, hs⟩ := Option.isSome_iff_exists.mp hsome
      have hcons : ('\n' :: intercalateNL (y :: rest2)).getLast? = some a := by
        rw [show ('\n' :: intercalateNL (y :: rest2)) = ['\n'] ++ intercalateNL (y :: rest2)
          from rfl, List.getLast?_append, hs]
        rfl
      rw [hcons]
      rw [hs] at hlast
      rw [← hlast]
      rfl

/-! ### Lemmas about digit rendering and parsing -/

theorem isDigit_props (c : Char) (h : c.isDigit = true) :
    c ≠ '_' ∧ isPyWS c = false ∧ c ≠ '\n' ∧ c ≠ '-' ∧ c ≠ '+' := by
  refine ⟨?_, ?_, ?_, ?_, ?_⟩
  · intro hc; rw [hc] at h; exact absurd h (by decide)
  · cases hb : isPyWS c
    · rfl
    · exfalso
      have hb2 := hb
      simp only [isPyWS, Bool.or_eq_true, decide_eq_true_eq] at hb2
      rcases hb2 with ((((h1 | h1) | h1) | h1) | h1) | h1 <;>
        (rw [h1] at h; exact absurd h (by decide))
  · intro hc; rw [hc] at h; exact absurd h (by decide)
  · intro hc; rw [hc] at h; exact absurd h (by decide)
  · intro hc; rw [hc] at h; exact absurd h (by decide)

theorem dChar_props (d : Nat) (h : d < 10) :
    (dChar d).isDigit = true ∧ dVal (dChar d) = d := by
  interval_cases d <;> exact ⟨by decide, by decide⟩

theorem natReprAux_all_digits (fuel : Nat) :
    ∀ n, n < fuel → ∀ c ∈ natReprAux fuel n, c.isDigit = true := by
  induction fuel with
  | zero => intro n hn; omega
  | succ fuel ih =>
    intro n hn c hc
    simp only [natReprAux] at hc
    by_cases h10 : n < 10
    · rw [if_pos h10] at hc
      simp only [List.mem_singleton] at hc
      rw [hc]
      exact (dChar_props n h10).1
    · rw [if_neg h10] at hc
      rcases List.mem_append.mp hc with hm | hm
      · have hd : n / 10 < n := Nat.div_lt_self (by omega) (by omega)
        exact ih (n / 10) (by omega) c hm
      · simp only [List.mem_singleton] at hm
        rw [hm]
        exact (dChar_props (n % 10) (Nat.mod_lt n (by omega))).1

theorem natReprAux_ne_nil (fuel n : Nat) (hn : n < fuel) : natReprAux fuel n ≠ [] := by
  cases fuel with
  | zero => omega
  | succ fuel =>
    simp only [natReprAux]
    by_cases h10 : n < 10
    · rw [if_pos h10]; simp
    · rw [if_neg h10]; simp

theorem natReprChars_ne_nil (n : Nat) : natReprChars n ≠ [] :=
  natReprAux_ne_nil (n + 1) n (by omega)

theorem natReprChars_all_digits (n : Nat) : ∀ c ∈ natReprChars n, c.isDigit = true :=
  natReprAux_all_digits (n + 1) n (by omega)

theorem digitsVal_append_one (l : List Char) (c : Char) :
    digitsVal (l ++ [c]) = 10 * digitsVal l + dVal c := by
  simp [digitsVal, List.foldl_append]

theorem digitsVal_natReprAux (fuel : Nat) :
    ∀ n, n < fuel → digitsVal (natReprAux fuel n) = n := by
  induction fuel with
  | zero => intro n hn; omega
  | succ fuel ih =>
    intro n hn
    simp only [natReprAux]
    by_cases h10 : n < 10
    · rw [if_pos h10]
      have hv := (dChar_props n h10).2
      simp [digitsVal, hv]
    · rw [if_neg h10]
      have hd : n / 10 < n := Nat.div_lt_self (by omega) (by omega)
      rw [digitsVal_append_one, ih (n / 10) (by omega),
        (dChar_props (n % 10) (Nat.mod_lt n (by omega))).2]
      omega

theorem validDigitsU_of_all (l : List Char) (hne : l ≠ [])
    (h : ∀ c ∈ l, c.isDigit = true) : validDigitsU l = true := by
  induction l with
  | nil => exact absurd rfl hne
  | cons a t ih =>
    cases t with
    | nil =>
      simp only [validDigitsU]
      exact h a (List.mem_cons_self ..)
    | cons d rest =>
      have hd : d.isDigit = true := h d (List.mem_cons_of_mem a (List.mem_cons_self ..))
      have hdu : d ≠ '_' := (isDigit_props d hd).1
      simp only [validDigitsU]
      rw [if_neg hdu]
      rw [h a (List.mem_cons_self ..), ih (by simp) (fun c hc => h c (List.mem_cons_of_mem a hc))]
      rfl

theorem parseUDigits_all_digits (l : List Char) (hne : l ≠ [])
    (h : ∀ c ∈ l, c.isDigit = true) : parseUDigits l = some (digitsVal l) := by
  unfold parseUDigits
  rw [if_pos (validDigitsU_of_all l hne h)]
  congr 1
  have hfe : l.filter (fun c => c ≠ '_') = l := by
    refine List.filter_eq_self.mpr (fun c hc => ?_)
    simpa using (isDigit_props c (h c hc)).1
  rw [hfe]

theorem parseUDigits_natReprChars (n : Nat) : parseUDigits (natReprChars n) = some n := by
  rw [parseUDigits_all_digits _ (natReprChars_ne_nil n) (natReprChars_all_digits n)]
  unfold natReprChars
  rw [digitsVal_natReprAux (n + 1) n (by omega)]

theorem natReprChars_no_ws (n : Nat) : ∀ c ∈ natReprChars n, isPyWS c = false :=
  fun c hc => (isDigit_props c (natReprChars_all_digits n c hc)).2.1

theorem intStr_strip (v : Int) : pyStrip (intStr v) = intStr v := by
  unfold pyStrip intStr
  by_cases hv : v < 0
  · rw [if_pos hv]
    simp only
    rw [stripChars_eq_self_of_all _ (fun c hc => ?_)]
    rcases List.mem_cons.mp hc with hm | hm
    · rw [hm]; decide
    · exact natReprChars_no_ws _ c hm
  · rw [if_neg hv]
    simp only
    rw [stripChars_eq_self_of_all _ (natReprChars_no_ws _)]

theorem intStr_ne_empty (v : Int) : intStr v ≠ "" := by
  unfold intStr
  by_cases hv : v < 0
  · rw [if_pos hv]
    intro hemp
    exact List.noConfusion ((string_mk_eq_empty_iff _).mp hemp)
  · rw [if_neg hv]
    intro hemp
    exact natReprChars_ne_nil _ ((string_mk_eq_empty_iff _).mp hemp)

theorem parsePyInt_intStr (v : Int) : parsePyInt (intStr v) = some v := by
  have hdata : stripChars (intStr v).data = (intStr v).data := by
    have h2 := congrArg String.data (intStr_strip v)
    simpa [pyStrip] using h2
  unfold parsePyInt
  rw [hdata]
  by_cases hv : v < 0
  · have hval : (intStr v).data = '-' :: natReprChars (-v).toNat := by
      unfold intStr
      rw [if_pos hv]
    rw [hval]
    simp [parsePyIntCore, parseUDigits_natReprChars]
    omega
  · have hval : (intStr v).data = natReprChars v.toNat := by
      unfold intStr
      rw [if_neg hv]
    rw [hval]
    obtain ⟨c, rest, hcr⟩ := List.exists_cons_of_ne_nil (natReprChars_ne_nil v.toNat)
    have hcd : c.isDigit = true := by
      refine natReprChars_all_digits v.toNat c ?_
      rw [hcr]
      exact List.mem_cons_self ..
    have hprops := isDigit_props c hcd
    rw [hcr]
    simp only [parsePyIntCore]
    rw [if_neg hprops.2.2.2.1, if_neg hprops.2.2.2.2, ← hcr, parseUDigits_natReprChars]
    simp
    omega

theorem parsePyInt_strip_ne (s : String) (v : Int) (h : parsePyInt s = some v) :
    pyStrip s ≠ "" := by
  intro hemp
  have hnil : stripChars s.data = [] := by
    unfold pyStrip at hemp
    exact (string_mk_eq_empty_iff _).mp hemp
  unfold parsePyInt at h
  rw [hnil] at h
  exact Option.noConfusion h

theorem stripChars_data_of_strip_eq (e : String) (h : pyStrip e = e) :
    stripChars e.data = e.data := by
  have h2 := congrArg String.data h
  simpa [pyStrip] using h2

theorem cleanLines_joinNL (es : List String) (h : ∀ e ∈ es, entryNormalized e) :
    cleanLines (joinNL es).data = es := by
  cases hes : es with
  | nil => rfl
  | cons e0 rest =>
    rw [← hes]
    have hne : es.map String.data ≠ [] := by
      rw [hes]; simp
    have hnl : ∀ l ∈ es.map String.data, '\n' ∉ l := by
      intro l hlm
      obtain ⟨e, he, rfl⟩ := List.mem_map.mp hlm
      exact (h e he).2.2
    have hdata : (joinNL es).data = intercalateNL (es.map String.data) := rfl
    unfold cleanLines
    rw [hdata, splitNL_intercalateNL _ hne hnl, List.map_map]
    have hmap : es.map ((fun cs => (⟨stripChars cs⟩ : String)) ∘ String.data) = es := by
      have hcong : es.map ((fun cs => (⟨stripChars cs⟩ : String)) ∘ String.data)
          = es.map id := by
        refine List.map_congr_left (fun e he => ?_)
        show (⟨stripChars e.data⟩ : String) = e
        rw [stripChars_data_of_strip_eq e (h e he).2.1]
      rw [hcong, List.map_id]
    rw [hmap]
    refine List.filter_eq_self.mpr (fun e he => ?_)
    simpa using (h e he).1

theorem data_ne_nil_of_ne_empty (e : String) (h : e ≠ "") : e.data ≠ [] := by
  intro hnil
  refine h ?_
  have he : e = ⟨e.data⟩ := rfl
  rw [he, hnil]

theorem strip_joinNL (es : List String) (h : ∀ e ∈ es, entryNormalized e) :
    stripChars (joinNL es).data = (joinNL es).data := by
  cases hes : es with
  | nil => rfl
  | cons e0 rest =>
    rw [← hes]
    have hdata : (joinNL es).data = intercalateNL (es.map String.data) := rfl
    rw [hdata]
    have hents : ∀ l ∈ es.map String.data, l ≠ [] := by
      intro l hlm
      obtain ⟨e, he, rfl⟩ := List.mem_map.mp hlm
      exact data_ne_nil_of_ne_empty e (h e he).1
    have hends : ∀ e ∈ es, (∀ c, e.data.head? = some c → isPyWS c = false) ∧
        (∀ c, e.data.getLast? = some c → isPyWS c = false) :=
      fun e he => ends_not_ws_of_stripChars_eq e.data (stripChars_data_of_strip_eq e (h e he).2.1)
    refine stripChars_eq_self _ (fun c hc => ?_) (fun c hc => ?_)
    · rw [hes] at hc
      have hh := head?_intercalateNL e0.data (rest.map String.data)
        (data_ne_nil_of_ne_empty e0 (h e0 (hes ▸ List.mem_cons_self ..)).1)
      rw [show (e0 :: rest).map String.data = e0.data :: rest.map String.data from rfl, hh] at hc
      exact (hends e0 (hes ▸ List.mem_cons_self ..)).1 c hc
    · obtain ⟨l, hlm, hlast⟩ := getLast?_intercalateNL (es.map String.data)
        (by rw [hes]; simp) hents
      rw [hlast] at hc
      obtain ⟨e, he, rfl⟩ := List.mem_map.mp hlm
      exact (hends e he).2 c hc

theorem exeEncList_joinNL (es : List String) (h : ∀ e ∈ es, entryNormalized e) :
    exeEncList (joinNL es) = if es = [] then none else some es := by
  unfold exeEncList
  rw [strip_joinNL es h, cleanLines_joinNL es h]
  cases es with
  | nil => rfl
  | cons e rest => simp

theorem exeEncInt_exeDecInt (o : Option Int) : exeEncInt (exeDecInt o) = o := by
  cases o with
  | none =>
    show exeEncInt ("", false) = none
    decide
  | some v =>
    show exeEncInt (intStr v, true) = some v
    simp only [exeEncInt]
    rw [if_neg (parsePyInt_strip_ne (intStr v) v (parsePyInt_intStr v))]
    rw [parsePyInt_intStr]
    simp

theorem exeTimeRt (o : Option String) :
    ((if o.getD "" = "" then none else some (o.getD "") : Option String)).getD ""
      = o.getD "" := by
  by_cases h : o.getD "" = "" <;> simp [h]

theorem exeMoonRt (m : String) :
    (((if m = "" then none else some (PyVal.str m)) : Option PyVal).map pyStr).getD "" = m := by
  by_cases h : m = "" <;> simp [h, pyStr]

theorem exeBoolRt (b : Bool) :
    ((if b then some true else none : Option Bool)).getD false = b := by
  cases b <;> simp

theorem exeStrRt (s : String) (h : pyStrip s = s) :
    ((if pyStrip s = "" then none else some (pyStrip s) : Option String)).getD "" = s := by
  rw [h]
  by_cases hs : s = "" <;> simp [hs]

/-- The exe.py condition codec round trip: initializing the editor from a
raw condition, collecting its result, and initializing a fresh editor from
that result reproduces the first editor state, provided the list entries are
normalized and the free strings carry no surrounding whitespace. -/
theorem exeCondRoundtrip (r : RawCondition)
    (hl : ∀ f ∈ ListField.all, ∀ e ∈ (r.lists f).getD [], entryNormalized e)
    (hs : ∀ f ∈ StrField.all, pyStrip ((r.strs f).getD "") = (r.strs f).getD "") :
    exeDecodeCond (exeEncodeCond (exeDecodeCond r)) = exeDecodeCond r := by
  simp only [exeDecodeCond, exeEncodeCond, ExeCondState.mk.injEq]
  refine ⟨?_, ?_, ?_, ?_, ?_, ?_⟩
  · exact exeTimeRt r.timeRange
  · exact exeMoonRt ((r.moonPhase.map pyStr).getD "")
  · funext f
    exact exeBoolRt ((r.bools f).getD false)
  · funext f
    exact congrArg exeDecInt (exeEncInt_exeDecInt (r.ints f))
  · funext f
    rw [exeEncList_joinNL _ (hl f (memAllListField f))]
    by_cases he : (r.lists f).getD [] = [] <;> simp [he]
  · funext f
    exact exeStrRt _ (hs f (memAllStrField f))

theorem appChoiceMem (vocab : List String) (h0 : "" ∈ vocab) (cur : String) :
    appDecChoice vocab cur ∈ vocab := by
  unfold appDecChoice
  split
  · assumption
  · exact h0

theorem appChoiceIdem (vocab : List String) (cur : String) (h : cur ∈ vocab) :
    appDecChoice vocab cur = cur := by
  unfold appDecChoice
  rw [if_pos h]

theorem appIntRt (o : Option Int) :
    (match (if (match o with
        | some v => ((v, true) : Int × Bool)
        | none => (0, false)).2 ∨ (match o with
        | some v => ((v, true) : Int × Bool)
        | none => (0, false)).1 ≠ 0 then
        some (match o with
        | some v => ((v, true) : Int × Bool)
        | none => (0, false)).1 else none : Option Int) with
      | some v => ((v, true) : Int × Bool)
      | none => (0, false)) =
    (match o with
      | some v => ((v, true) : Int × Bool)
      | none => (0, false)) := by
  cases o with
  | none => simp
  | some v => simp

/-- The app.py condition codec round trip, under the same normalization of
list entries; free strings need no hypothesis because render_condition does
not strip them. -/
theorem appCondRoundtrip (r : RawCondition)
    (hl : ∀ f ∈ ListField.all, ∀ e ∈ (r.lists f).getD [], entryNormalized e) :
    appDecodeCond (appEncodeCond (appDecodeCond r)) = appDecodeCond r := by
  simp only [appDecodeCond, appEncodeCond, AppCondState.mk.injEq]
  refine ⟨?_, ?_, ?_, ?_, ?_, ?_⟩
  · have hmem := appChoiceMem TIME_RANGES (by simp [TIME_RANGES]) (r.timeRange.getD "")
    by_cases ht : appDecChoice TIME_RANGES (r.timeRange.getD "") = ""
    · rw [ht]
      simp [appDecChoice, TIME_RANGES]
    · rw [if_neg ht]
      simp only [Option.getD_some]
      exact appChoiceIdem _ _ hmem
  · have hmem := appChoiceMem MOON_PHASES (by simp [MOON_PHASES]) ((r.moonPhase.map pyStr).getD "")
    by_cases ht : appDecChoice MOON_PHASES ((r.moonPhase.map pyStr).getD "") = ""
    · rw [ht]
      simp [appDecChoice, MOON_PHASES]
    · rw [if_neg ht]
      show appDecChoice MOON_PHASES (pyStr (PyVal.str _)) = _
      exact appChoiceIdem _ _ hmem
  · funext f
    exact exeBoolRt ((r.bools f).getD false)
  · funext f
    exact appIntRt (r.ints f)
  · funext f
    show joinNL ((if (cleanLines (joinNL ((r.lists f).getD [])).data).isEmpty then none
      else some (cleanLines (joinNL ((r.lists f).getD [])).data)).getD []) = _
    rw [cleanLines_joinNL _ (hl f (memAllListField f))]
    by_cases he : (r.lists f).getD [] = [] <;> simp [he]
  · funext f
    by_cases hsv : (r.strs f).getD "" = "" <;> simp [hsv]

/-! ### Lemmas about blank conditions -/

theorem exeEncodeCond_blank (w : ExeCondState) (h : w.blank) :
    exeEncodeCond w = emptyRawCond := by
  obtain ⟨h1, h2, h3, h4, h5, h6⟩ := h
  simp only [exeEncodeCond, emptyRawCond, RawCondition.mk.injEq]
  refine ⟨by simp [h1], by simp [h2], ?_, ?_, ?_, ?_⟩
  · funext f
    simp [h3 f (memAllBoolField f)]
  · funext f
    have hf := h4 f (memAllIntField f)
    cases hw : w.ints f with
    | mk t b =>
      rw [hw] at hf
      obtain ⟨hb, ht⟩ := hf
      simp only at hb ht
      subst hb
      rcases ht with ht | ht <;> (subst ht; decide)
  · funext f
    rw [h5 f (memAllListField f)]
    decide
  · funext f
    rw [h6 f (memAllStrField f)]
    decide

theorem appEncodeCond_blank (w : AppCondState) (h : w.blank) :
    appEncodeCond w = emptyRawCond := by
  obtain ⟨h1, h2, h3, h4, h5, h6⟩ := h
  simp only [appEncodeCond, emptyRawCond, RawCondition.mk.injEq]
  refine ⟨by simp [h1], by simp [h2], ?_, ?_, ?_, ?_⟩
  · funext f
    simp [h3 f (memAllBoolField f)]
  · funext f
    rw [h4 f (memAllIntField f)]
    decide
  · funext f
    rw [h5 f (memAllListField f)]
    decide
  · funext f
    rw [h6 f (memAllStrField f)]
    decide

theorem rawCondNonempty_empty : rawCondNonempty emptyRawCond = false := by decide

theorem exeSpawn_condition_none (se : ExeSpawnState)
    (h : exeEncodeCond se.cond = emptyRawCond) :
    (exeSpawnGetData se).condition = none := by
  simp only [exeSpawnGetData]
  rw [h, rawCondNonempty_empty]
  simp

theorem exeSpawn_anticondition_none (se : ExeSpawnState)
    (h : exeEncodeCond se.anti = emptyRawCond) :
    (exeSpawnGetData se).anticondition = none := by
  simp only [exeSpawnGetData]
  rw [h, rawCondNonempty_empty]
  simp

theorem appSpawn_condition_none (sa : AppSpawnState)
    (h : appEncodeCond sa.cond = emptyRawCond) :
    (appRenderSpawn sa).condition = none := by
  simp only [appRenderSpawn]
  rw [h, rawCondNonempty_empty]
  simp

theorem appSpawn_anticondition_none (sa : AppSpawnState)
    (h : appEncodeCond sa.anti = emptyRawCond) :
    (appRenderSpawn sa).anticondition = none := by
  simp only [appRenderSpawn]
  rw [h, rawCondNonempty_empty]
  simp

/-! ### Claim C1: condition codec round trip -/

/-- C1, counterexample. The claim asserts the round trip
decode(encode(decode(raw))) = decode(raw) for every valid raw condition
object. It fails on the valid object with biomes equal to the two-entry list
holding "a" and the empty string: the text widget holds the two joined lines,
encode drops the blank line, and re-decoding yields a one-line widget, a
different editor state. Both front ends lose the blank entry. -/
theorem c1_counterexample :
    appDecodeCond (appEncodeCond (appDecodeCond rawC1)) ≠ appDecodeCond rawC1 ∧
    exeDecodeCond (exeEncodeCond (exeDecodeCond rawC1)) ≠ exeDecodeCond rawC1 := by
  constructor
  · intro h
    have h2 := congrArg (fun w => w.lists ListField.biomes) h
    revert h2
    decide
  · intro h
    have h2 := congrArg (fun w => w.lists ListField.biomes) h
    revert h2
    decide

/-- C1, amended. The condition codec round trip decode(encode(decode(raw)))
= decode(raw) holds for every valid raw condition object whose list entries
are normalized (non-blank, no surrounding whitespace, single-line); the
Tkinter codec additionally requires the free-string fields to carry no
surrounding whitespace, because its get_data strips them while the Streamlit
one does not. -/
theorem c1_roundtrip_amended (r : RawCondition)
    (hl : ∀ f ∈ ListField.all, ∀ e ∈ (r.lists f).getD [], entryNormalized e) :
    appDecodeCond (appEncodeCond (appDecodeCond r)) = appDecodeCond r ∧
    ((∀ f ∈ StrField.all, pyStrip ((r.strs f).getD "") = (r.strs f).getD "") →
      exeDecodeCond (exeEncodeCond (exeDecodeCond r)) = exeDecodeCond r) :=
  ⟨appCondRoundtrip r hl, fun hs => exeCondRoundtrip r hl hs⟩

/-- C1, witness: the amended round trip evaluated on a populated normalized
condition. -/
theorem c1_witness :
    (∀ f ∈ ListField.all, ∀ e ∈ (rawC1Good.lists f).getD [], entryNormalized e) ∧
    (∀ f ∈ StrField.all, pyStrip ((rawC1Good.strs f).getD "") = (rawC1Good.strs f).getD "") ∧
    appDecodeCond (appEncodeCond (appDecodeCond rawC1Good)) = appDecodeCond rawC1Good ∧
    exeDecodeCond (exeEncodeCond (exeDecodeCond rawC1Good)) = exeDecodeCond rawC1Good :=
  ⟨by decide, by decide,
   (c1_roundtrip_amended rawC1Good (by decide)).1,
   (c1_roundtrip_amended rawC1Good (by decide)).2 (by decide)⟩

/-! ### Claim C2: the desktop front end cannot import -/

/-- C2. The from-import on exe.py line 16 requests the names reset and
set_blank from get_default_pokemons; set_blank is bound nowhere in that
module, so the import raises ImportError on every run and the Tkinter
application never starts. -/
theorem c2_import_error :
    fromImportFails getDefaultPokemonsNames exeFromImportNames = true ∧
    "set_blank" ∉ getDefaultPokemonsNames ∧
    "set_blank" ∈ exeFromImportNames ∧
    "reset" ∈ getDefaultPokemonsNames := by
  decide

/-! ### Claim C3: blank conditions encode to the empty object and are omitted -/

/-- C3. A condition state with every field at its zero, false or empty value
encodes to the empty object in both front ends, and a spawn entry whose
condition or anticondition editor is in such a state carries no condition or
anticondition key in its encoded form. -/
theorem c3_blank_condition_omitted
    (we : ExeCondState) (wa : AppCondState) (se : ExeSpawnState) (sa : AppSpawnState)
    (he : we.blank) (ha : wa.blank)
    (hse1 : se.cond.blank) (hse2 : se.anti.blank)
    (hsa1 : sa.cond.blank) (hsa2 : sa.anti.blank) :
    exeEncodeCond we = emptyRawCond ∧ appEncodeCond wa = emptyRawCond ∧
    (exeSpawnGetData se).condition = none ∧ (exeSpawnGetData se).anticondition = none ∧
    (appRenderSpawn sa).condition = none ∧ (appRenderSpawn sa).anticondition = none :=
  ⟨exeEncodeCond_blank we he, appEncodeCond_blank wa ha,
   exeSpawn_condition_none se (exeEncodeCond_blank se.cond hse1),
   exeSpawn_anticondition_none se (exeEncodeCond_blank se.anti hse2),
   appSpawn_condition_none sa (appEncodeCond_blank sa.cond hsa1),
   appSpawn_anticondition_none sa (appEncodeCond_blank sa.anti hsa2)⟩

/-- C3, witness: the blank editor states and a concrete spawn editor state
holding them. -/
theorem c3_witness :
    blankExeCond.blank ∧ blankAppCond.blank ∧
    exeEncodeCond blankExeCond = emptyRawCond ∧
    appEncodeCond blankAppCond = emptyRawCond ∧
    (exeSpawnGetData sampleExeSpawn).condition = none ∧
    (exeSpawnGetData sampleExeSpawn).anticondition = none ∧
    (appRenderSpawn sampleAppSpawn).condition = none ∧
    (appRenderSpawn sampleAppSpawn).anticondition = none := by
  have h := c3_blank_condition_omitted blankExeCond blankAppCond sampleExeSpawn sampleAppSpawn
    (by decide) (by decide) (by decide) (by decide) (by decide) (by decide)
  exact ⟨by decide, by decide, h.1, h.2.1, h.2.2.1, h.2.2.2.1, h.2.2.2.2.1, h.2.2.2.2.2⟩

/-! ### Claim C4: weight multiplier legacy normalization -/

/-- C4, counterexample. The claim asserts that whenever the singular
weightMultiplier key is present and the plural key absent, decode yields a
one-element list. Both front ends test Python truthiness of the singular
value, so the present-but-empty object is skipped and the decoded list is
empty, not one-element. -/
theorem c4_counterexample :
    normalizeWms (some rawWMEmpty) none = [] ∧
    ([] : List RawWM) ≠ [rawWMEmpty] := by
  constructor
  · rfl
  · simp

/-- C4, amended. When the singular weightMultiplier key holds a truthy
(non-empty) object and the plural weightMultipliers key is absent or holds an
empty list, decode treats the singular value as a one-element list; on
encode, neither front end ever emits the singular key, and the plural key is
emitted exactly when the collected multiplier list is non-empty. -/
theorem c4_wm_normalization (s : RawWM) (se : ExeSpawnState) (sa : AppSpawnState)
    (hs : wmTruthy s = true) :
    normalizeWms (some s) none = [s] ∧
    normalizeWms (some s) (some []) = [s] ∧
    (exeSpawnGetData se).weightMultiplier = none ∧
    (appRenderSpawn sa).weightMultiplier = none ∧
    ((exeSpawnGetData se).weightMultipliers.isSome ↔ se.wms ≠ []) ∧
    ((appRenderSpawn sa).weightMultipliers.isSome ↔ sa.wms ≠ []) := by
  refine ⟨by simp [normalizeWms, hs], by simp [normalizeWms, hs],
    by simp [exeSpawnGetData], by simp [appRenderSpawn], ?_, ?_⟩
  · simp only [exeSpawnGetData]
    by_cases h : se.wms = []
    · simp [h]
    · simp [h, List.isEmpty_iff]
  · simp only [appRenderSpawn]
    by_cases h : sa.wms = []
    · simp [h]
    · simp [h, List.isEmpty_iff]

/-- C4, witness: a truthy raw multiplier is normalized to a one-element
list, and a spawn state with one multiplier editor emits only the plural
key. -/
theorem c4_witness :
    wmTruthy sampleRawWM = true ∧
    normalizeWms (some sampleRawWM) none = [sampleRawWM] ∧
    (exeSpawnGetData sampleExeSpawn).weightMultiplier = none ∧
    ¬((exeSpawnGetData sampleExeSpawn).weightMultipliers.isSome = true) := by
  have h := c4_wm_normalization sampleRawWM sampleExeSpawn sampleAppSpawn (by decide)
  refine ⟨by decide, h.1, h.2.2.1, ?_⟩
  intro hsome
  exact (h.2.2.2.2.1.mp hsome) rfl

/-! ### Claim C5: a weight multiplier always carries its condition key -/

/-- C5. Both weight multiplier encoders always emit the condition key, even
when the collected condition is the empty object, in contrast with the
spawn-level condition key, which is omitted when the collected condition is
empty. -/
theorem c5_wm_condition_always (w : ExeWMState) (a : AppWMState)
    (se : ExeSpawnState) (sa : AppSpawnState)
    (hw : w.cond.blank) (ha : a.cond.blank)
    (hse : se.cond.blank) (hsa : sa.cond.blank) :
    (exeWMGetData w).condition = some emptyRawCond ∧
    (appRenderWM a).condition = some emptyRawCond ∧
    (exeSpawnGetData se).condition = none ∧
    (appRenderSpawn sa).condition = none := by
  refine ⟨?_, ?_, ?_, ?_⟩
  · simp [exeWMGetData, exeEncodeCond_blank w.cond hw]
  · simp [appRenderWM, appEncodeCond_blank a.cond ha]
  · exact exeSpawn_condition_none se (exeEncodeCond_blank se.cond hse)
  · exact appSpawn_condition_none sa (appEncodeCond_blank sa.cond hsa)

/-- C5, witness: concrete multiplier editors over blank conditions. -/
theorem c5_witness :
    blankExeCond.blank ∧
    (exeWMGetData { multText := "2.0", cond := blankExeCond }).condition
      = some emptyRawCond ∧
    (appRenderWM { mult := .num 2, cond := blankAppCond }).condition
      = some emptyRawCond ∧
    (exeSpawnGetData sampleExeSpawn).condition = none ∧
    (appRenderSpawn sampleAppSpawn).condition = none := by
  have h := c5_wm_condition_always { multText := "2.0", cond := blankExeCond }
    { mult := .num 2, cond := blankAppCond } sampleExeSpawn sampleAppSpawn
    (by decide) (by decide) (by decide) (by decide)
  exact ⟨by decide, h.1, h.2.1, h.2.2.1, h.2.2.2⟩

/-! ### Claim C6: integer condition fields -/

theorem exeDecInt_snd (o : Option Int) : (exeDecInt o).2 = o.isSome := by
  cases o <;> rfl

/-- C6. After an edit of one integer entry, the encoded condition contains
that field exactly when the source object had an explicit value for it or
the edited value is non-zero; in particular a field absent in source and
edited back to zero is omitted, while a field explicitly zero in source is
kept. In exe.py the edit is entry text that must parse as an int; in app.py
the number input supplies the integer directly. -/
theorem c6_int_field_presence (r : RawCondition) (f : IntField) (t : String) (v u : Int)
    (ht : parsePyInt t = some v) :
    (exeEncodeCond ((exeDecodeCond r).setIntText f t)).ints f
      = (if (r.ints f).isSome ∨ v ≠ 0 then some v else none) ∧
    (appEncodeCond ((appDecodeCond r).setIntVal f u)).ints f
      = (if (r.ints f).isSome ∨ u ≠ 0 then some u else none) := by
  constructor
  · have hfield : ((exeDecodeCond r).setIntText f t).ints f = (t, (r.ints f).isSome) := by
      simp [ExeCondState.setIntText, exeDecodeCond, exeDecInt_snd]
    simp only [exeEncodeCond]
    rw [hfield]
    simp only [exeEncInt]
    rw [if_neg (parsePyInt_strip_ne t v ht), ht]
  · have hfield : ((appDecodeCond r).setIntVal f u).ints f = (u, (r.ints f).isSome) := by
      simp only [AppCondState.setIntVal, appDecodeCond]
      rw [if_pos trivial]
      cases r.ints f <;> rfl
    simp only [appEncodeCond]
    rw [hfield]

/-- C6, witness: minY explicitly zero in source, edited to the text 0, is
kept as zero; in the other front end the same field edited to the value 0 is
also kept. -/
theorem c6_witness :
    parsePyInt "0" = some 0 ∧
    (exeEncodeCond ((exeDecodeCond rawC6).setIntText IntField.minY "0")).ints IntField.minY
      = (if (rawC6.ints IntField.minY).isSome ∨ (0 : Int) ≠ 0 then some 0 else none) ∧
    (appEncodeCond ((appDecodeCond rawC6).setIntVal IntField.minY 0)).ints IntField.minY
      = (if (rawC6.ints IntField.minY).isSome ∨ (0 : Int) ≠ 0 then some 0 else none) :=
  ⟨by decide,
   (c6_int_field_presence rawC6 IntField.minY "0" 0 0 (by decide)).1,
   (c6_int_field_presence rawC6 IntField.minY "0" 0 0 (by decide)).2⟩

/-! ### Claim C7: numeric fallbacks -/

/-- C7. When user-edited numeric text fails to parse, the Tkinter collectors
do not raise (each is a total function whose ValueError branch is the
fallback): the spawn weight falls back to 1.0, the multiplier to 1.0, and
the drop amount to 1, so one malformed field never prevents collecting the
rest of the record. -/
theorem c7_numeric_fallbacks (se : ExeSpawnState) (w : ExeWMState) (d : ExeDropsState)
    (hw : parsePyFloat se.weightText = none)
    (hm : parsePyFloat w.multText = none)
    (hd : d.enabled = true) (ha : parsePyInt d.amountText = none) :
    (exeSpawnGetData se).weight = PyFloat.num 1 ∧
    (exeWMGetData w).multiplier = some (PyFloat.num 1) ∧
    (exeDropsGetData d).map RawDrops.amount = some 1 := by
  refine ⟨?_, ?_, ?_⟩
  · simp [exeSpawnGetData, hw]
  · simp [exeWMGetData, hm]
  · simp [exeDropsGetData, hd, ha]

/-- C7, witness: malformed weight, multiplier and amount texts. -/
theorem c7_witness :
    parsePyFloat "abc" = none ∧ parsePyFloat "oops" = none ∧ parsePyInt "many" = none ∧
    (exeSpawnGetData badExeSpawn).weight = PyFloat.num 1 ∧
    (exeWMGetData badExeWM).multiplier = some (PyFloat.num 1) ∧
    (exeDropsGetData badExeDrops).map RawDrops.amount = some 1 := by
  have h := c7_numeric_fallbacks badExeSpawn badExeWM badExeDrops
    (by decide) (by decide) (by decide) (by decide)
  exact ⟨by decide, by decide, by decide, h.1, h.2.1, h.2.2⟩

/-! ### Claim C8: variant fields follow the type discriminator -/

/-- C8. Collecting a spawn whose type is pokemon-herd never emits the
pokemon or level keys, and collecting one whose type is pokemon or npc never
emits levelRange, maxHerdSize, minDistanceBetweenSpawns or herdablePokemon;
since the same editor state is collected after a type switch, switching the
discriminator discards the fields not valid for the new variant, in both
front ends. -/
theorem c8_variant_fields (se : ExeSpawnState) (sa : AppSpawnState) :
    (exeSpawnGetData { se with typ := "pokemon-herd" }).pokemon = none ∧
    (exeSpawnGetData { se with typ := "pokemon-herd" }).level = none ∧
    (exeSpawnGetData { se with typ := "pokemon" }).levelRange = none ∧
    (exeSpawnGetData { se with typ := "pokemon" }).maxHerdSize = none ∧
    (exeSpawnGetData { se with typ := "pokemon" }).minDistanceBetweenSpawns = none ∧
    (exeSpawnGetData { se with typ := "pokemon" }).herdablePokemon = none ∧
    (exeSpawnGetData { se with typ := "npc" }).levelRange = none ∧
    (exeSpawnGetData { se with typ := "npc" }).maxHerdSize = none ∧
    (exeSpawnGetData { se with typ := "npc" }).minDistanceBetweenSpawns = none ∧
    (exeSpawnGetData { se with typ := "npc" }).herdablePokemon = none ∧
    (appRenderSpawn { sa with typ := "pokemon-herd" }).pokemon = none ∧
    (appRenderSpawn { sa with typ := "pokemon-herd" }).level = none ∧
    (appRenderSpawn { sa with typ := "pokemon" }).levelRange = none ∧
    (appRenderSpawn { sa with typ := "pokemon" }).maxHerdSize = none ∧
    (appRenderSpawn { sa with typ := "pokemon" }).minDistanceBetweenSpawns = none ∧
    (appRenderSpawn { sa with typ := "pokemon" }).herdablePokemon = none ∧
    (appRenderSpawn { sa with typ := "npc" }).levelRange = none ∧
    (appRenderSpawn { sa with typ := "npc" }).maxHerdSize = none ∧
    (appRenderSpawn { sa with typ := "npc" }).minDistanceBetweenSpawns = none ∧
    (appRenderSpawn { sa with typ := "npc" }).herdablePokemon = none := by
  refine ⟨?_, ?_, ?_, ?_, ?_, ?_, ?_, ?_, ?_, ?_,
    ?_, ?_, ?_, ?_, ?_, ?_, ?_, ?_, ?_, ?_⟩ <;>
    simp [exeSpawnGetData, appRenderSpawn]

/-! ### Claim C9: moon phase coercion and vocabulary fallback -/

/-- C9, counterexample. The claim asserts that decode drops any moonPhase
value outside the vocabulary. The Tkinter decode keeps such a value in the
combobox variable and get_data passes it through to the output, so the claim
fails on the desktop front end. -/
theorem c9_counterexample :
    (exeDecodeCond rawC9).moon = "blood" ∧
    "blood" ∉ MOON_PHASES ∧
    (exeEncodeCond (exeDecodeCond rawC9)).moonPhase = some (PyVal.str "blood") := by
  decide

/-- C9, amended. Both decoders coerce a numeric moonPhase to its string form;
the Streamlit decode then drops any moonPhase or timeRange value outside the
vocabulary, replacing it by the explicit unset choice (the empty string),
while the Tkinter decode keeps the coerced value as it stands. -/
theorem c9_vocab_fallback (r : RawCondition) :
    (∀ n : Int, r.moonPhase = some (PyVal.intv n) →
      (appDecodeCond r).moon = (if intStr n ∈ MOON_PHASES then intStr n else "") ∧
      (exeDecodeCond r).moon = intStr n) ∧
    (∀ s : String, r.moonPhase = some (PyVal.str s) → s ∉ MOON_PHASES →
      (appDecodeCond r).moon = "") ∧
    (∀ s : String, r.timeRange = some s → s ∉ TIME_RANGES →
      (appDecodeCond r).time = "") := by
  refine ⟨?_, ?_, ?_⟩
  · intro n hn
    constructor
    · simp [appDecodeCond, hn, pyStr, appDecChoice]
    · simp [exeDecodeCond, hn, pyStr]
  · intro s hs hmem
    simp [appDecodeCond, hs, pyStr, appDecChoice, hmem]
  · intro s hs hmem
    simp [appDecodeCond, hs, appDecChoice, hmem]

/-- C9, witness: a numeric moon phase is coerced in both decoders, and
out-of-vocabulary values fall back in the Streamlit decoder. -/
theorem c9_witness :
    rawC9Num.moonPhase = some (PyVal.intv 3) ∧
    rawC9Num.timeRange = some "sometimes" ∧
    "sometimes" ∉ TIME_RANGES ∧
    rawC9.moonPhase = some (PyVal.str "blood") ∧
    "blood" ∉ MOON_PHASES ∧
    ((appDecodeCond rawC9Num).moon = (if intStr 3 ∈ MOON_PHASES then intStr 3 else "") ∧
      (exeDecodeCond rawC9Num).moon = intStr 3) ∧
    (appDecodeCond rawC9).moon = "" ∧
    (appDecodeCond rawC9Num).time = "" :=
  ⟨by decide, by decide, by decide, by decide, by decide,
   (c9_vocab_fallback rawC9Num).1 3 (by decide),
   (c9_vocab_fallback rawC9).2.1 "blood" (by decide) (by decide),
   (c9_vocab_fallback rawC9Num).2.2 "sometimes" (by decide) (by decide)⟩

/-! ### Claim C10: drop entries without an item are dropped -/

/-- C10. Every entry in an encoded drops object has a non-empty item, and an
entry state whose item is empty contributes nothing to the encoded entry
list, whatever its percentage or quantity range, in both front ends. -/
theorem c10_empty_item_excluded (d : ExeDropsState) (r : RawDrops)
    (a : AppDropsState) (ra : RawDrops) :
    (exeDropsGetData d = some r → ∀ e ∈ r.entries, e.item ≠ "") ∧
    (∀ wd : ExeDropEntryState, pyStrip wd.item = "" → exeEncodeDropEntry wd = none) ∧
    (appRenderDrops a = some ra → ∀ e ∈ ra.entries, e.item ≠ "") ∧
    (∀ wd : AppDropEntryState, wd.item = "" → appEncodeDropEntry wd = none) := by
  refine ⟨?_, ?_, ?_, ?_⟩
  · intro h e he
    have hr : r.entries = d.entries.filterMap exeEncodeDropEntry := by
      unfold exeDropsGetData at h
      split at h
      · cases h
        rfl
      · exact Option.noConfusion h
    rw [hr] at he
    obtain ⟨wd, _, hwd⟩ := List.mem_filterMap.mp he
    unfold exeEncodeDropEntry at hwd
    split at hwd
    · exact Option.noConfusion hwd
    · rename_i hne
      cases hwd
      exact hne
  · intro wd h
    unfold exeEncodeDropEntry
    rw [if_pos h]
  · intro h e he
    have hr : ra.entries = a.entries.filterMap appEncodeDropEntry := by
      unfold appRenderDrops at h
      split at h
      · cases h
        rfl
      · exact Option.noConfusion h
    rw [hr] at he
    obtain ⟨wd, _, hwd⟩ := List.mem_filterMap.mp he
    unfold appEncodeDropEntry at hwd
    split at hwd
    · exact Option.noConfusion hwd
    · rename_i hne
      cases hwd
      exact hne
  · intro wd h
    unfold appEncodeDropEntry
    rw [if_pos h]

/-- C10, witness: a drops state holding one item-less entry with a set
percentage and one populated entry encodes to a one-entry list whose item is
non-empty. -/
theorem c10_witness :
    exeDropsGetData dC10 = some rC10 ∧
    (∀ e ∈ rC10.entries, e.item ≠ "") ∧
    appRenderDrops aC10 = some raC10 ∧
    (∀ e ∈ raC10.entries, e.item ≠ "") ∧
    exeEncodeDropEntry { item := "", qr := "", pctText := "5.0" } = none ∧
    appEncodeDropEntry { item := "", qr := "x", pct := PyFloat.num 1 } = none :=
  ⟨by decide,
   (c10_empty_item_excluded dC10 rC10 aC10 raC10).1 (by decide),
   by decide,
   (c10_empty_item_excluded dC10 rC10 aC10 raC10).2.2.1 (by decide),
   (c10_empty_item_excluded dC10 rC10 aC10 raC10).2.1 _ (by decide),
   (c10_empty_item_excluded dC10 rC10 aC10 raC10).2.2.2 _ (by decide)⟩
